import Mathlib

/-!
Shallow embedding of `src/outbound/client_pool.js` (Haraka outbound client
pool).  Transport sockets are modelled as records carrying the ad-hoc
properties the JS code stitches onto the socket object (`__pool_name`,
`__sock_idx`, `__acquired`, `__fromPool`, `writable`), together with the
observable transport effects (data written, half-close via `end()`, full
close via `destroy()`, installed event-listener names).  The process-wide
registry `server.notes.pool` is an optional association list (absent until
first use).  The generic-pool library itself is not part of this
repository's sources; its per-pool bookkeeping (idle set, busy set, waiter
count) is modelled from the spec, §4.2, while the `create`/`validate`/
`destroy` closures handed to it come from the source file.
-/

namespace ClientPool

/-- Configuration options read from `./config` by the source file
(`connect_timeout`, `pool_timeout`, `pool_concurrency_max`), all numeric. -/
structure Config where
  connect_timeout : Nat
  pool_timeout : Nat
  pool_concurrency_max : Nat
deriving Repr, DecidableEq

/-- Severity levels of the logger calls the source file makes. -/
inductive LogLevel where
  | debug
  | info
  | warn
  | crit
  | protocol
deriving Repr, DecidableEq

/-- The connect target handed to `sock.connect`: a unix-domain path when
`is_unix_socket`, else (port, host, localAddress). -/
inductive ConnTarget where
  | unix (path : String)
  | tcp (port : Nat) (host : String) (local_addr : String)
deriving Repr, DecidableEq

/-- A transport socket, with the bookkeeping properties the JS code sets on
it and the observable transport-level effects. -/
structure Socket where
  sock_idx : Nat
  pool_name : Option String := none
  dest : ConnTarget := ConnTarget.tcp 25 "localhost" ""
  acquired : Bool := false
  fromPool : Bool := false
  writable : Bool := true
  ended : Bool := false
  destroyed : Bool := false
  written : List String := []
  timeout_ms : Nat := 0
  listeners : List String := []
deriving Repr, DecidableEq

/-- A socket has reached (or irrevocably entered) the terminal closed state:
either `end()` was issued (half-close; the `end` handler installed by the
teardown closure completes it with `destroy()`) or `destroy()` was called
directly. -/
def isClosed (s : Socket) : Bool :=
  s.ended || s.destroyed

/-- The `validate` closure from `get_pool`:
`return socket.__fromPool && socket.writable`. -/
def validate (s : Socket) : Bool :=
  s.fromPool && s.writable

/-- The `destroy` closure from `get_pool`: strip all listeners, clear
`__fromPool`, install the `line`/`error`/`end` drain listeners, write
`"QUIT\r\n"` when the transport is writable, then half-close with
`end()`. -/
def destroySocket (s : Socket) : Socket :=
  let s := { s with listeners := [] }
  let s := { s with fromPool := false }
  let s := { s with listeners := ["line", "error", "end"] }
  let s := if s.writable then { s with written := s.written ++ ["QUIT\r\n"] } else s
  { s with ended := true }

/-- `_create_socket`: build the socket, record the pool name and the
sequence index (`++socket_idx`), arm the connect timeout and install the
`connect`/`error`/`timeout` once-listeners.  Returns the socket and the
updated global `socket_idx`. -/
def _create_socket (cfg : Config) (pool_name : Option String) (port : Nat)
    (host : String) (local_addr : String) (is_unix_socket : Bool)
    (socket_idx : Nat) : Socket × Nat :=
  let dest := if is_unix_socket then ConnTarget.unix host
              else ConnTarget.tcp port host local_addr
  ({ sock_idx := socket_idx + 1
     pool_name := pool_name
     dest := dest
     acquired := false
     fromPool := false
     writable := true
     ended := false
     destroyed := false
     written := []
     timeout_ms := cfg.connect_timeout * 1000
     listeners := ["connect", "error", "timeout"] }, socket_idx + 1)

/-- The first decisive signal reported by a connecting transport. -/
inductive ConnEvent where
  | connected
  | errored (e : String)
  | timedOut
deriving Repr, DecidableEq

/-- The value passed to the `_create_socket` callback. -/
inductive CbVal where
  | ok (s : Socket)
  | fail (msg : String)
deriving Repr, DecidableEq

/-- One transport signal delivered to the socket set up by
`_create_socket`.  Each handler is registered with `once`, so it runs only
while its listener is still installed and removes exactly itself; the
connect handler additionally removes the `error` and `timeout` listeners
before invoking the callback, but the error and timeout handlers leave
their sibling listeners (including `connect`) installed.  Returns the
socket and the callback invocation this signal causes, if any. -/
def connStep (port : Nat) (host : String) (s : Socket) (ev : ConnEvent) :
    Socket × Option CbVal :=
  match ev with
  | ConnEvent.connected =>
      if "connect" ∈ s.listeners then
        let s := { s with
          listeners := s.listeners.filter
            (fun l => ¬ (l = "connect" ∨ l = "error" ∨ l = "timeout")) }
        (s, some (CbVal.ok s))
      else (s, none)
  | ConnEvent.errored e =>
      if "error" ∈ s.listeners then
        let s := { s with
          listeners := s.listeners.filter (fun l => l ≠ "error")
          ended := true }
        (s, some (CbVal.fail ("Outbound connection error: " ++ e)))
      else (s, none)
  | ConnEvent.timedOut =>
      if "timeout" ∈ s.listeners then
        let s := { s with
          listeners := s.listeners.filter (fun l => l ≠ "timeout")
          ended := true }
        (s, some (CbVal.fail ("Outbound connection timed out to " ++ host ++
          ":" ++ toString port)))
      else (s, none)

/-- Deliver a whole trace of transport signals, collecting every callback
invocation the `once` handlers perform. -/
def connRun (port : Nat) (host : String) (s : Socket) :
    List ConnEvent → Socket × List CbVal
  | [] => (s, [])
  | ev :: evs =>
      let sc := connStep port host s ev
      let rest := connRun port host sc.1 evs
      match sc.2 with
      | some cb => (rest.1, cb :: rest.2)
      | none => (rest.1, rest.2)

/-- Modelled from the spec: the generic-pool library used by `get_pool` is
not part of this repository's sources.  A pool's internal state is its
bounded maximum size, the idle (available) sockets, the busy (acquired)
socket indices and the count of queued waiters, per §4.2 of the spec.  The
`name`, `port`, `host`, `local_addr`, `is_unix` fields are the (already
defaulted) values captured by the `create` closure in `get_pool`. -/
structure Pool where
  name : String
  port : Nat
  host : String
  local_addr : String
  is_unix : Bool
  max : Nat
  idle : List Socket := []
  busy : List Nat := []
  waiting : Nat := 0
deriving Repr, DecidableEq

/-- The destination key built by `get_pool` (after defaulting):
`outbound::port:host:local_addr:pool_timeout`. -/
def poolName (port : Nat) (host : String) (local_addr : String)
    (pool_timeout : Nat) : String :=
  "outbound::" ++ toString port ++ ":" ++ host ++ ":" ++ local_addr ++ ":" ++
    toString pool_timeout

/-- A freshly constructed pool as `get_pool` configures it (`max: max || 10`,
empty idle/busy sets, no waiters). -/
def mkPool (name : String) (port : Nat) (host : String) (local_addr : String)
    (is_unix : Bool) (max : Nat) : Pool :=
  { name := name, port := port, host := host, local_addr := local_addr
    is_unix := is_unix, max := if max = 0 then 10 else max
    idle := [], busy := [], waiting := 0 }

/-- Scan the idle list for the first socket passing `validate`; return it
together with the remaining idle list. -/
def pickValid : List Socket → Option (Socket × List Socket)
  | [] => none
  | s :: rest =>
      if validate s then some (s, rest)
      else
        match pickValid rest with
        | some (t, r) => some (t, s :: r)
        | none => none

/-- Outcome of a pool acquisition step. -/
inductive AcqRes where
  | reuse (s : Socket)
  | create
  | queued
deriving Repr, DecidableEq

/-- Modelled from the spec (§4.2): acquire hands out a validated idle
socket when one exists; otherwise, when `idle + busy < max`, a new
connection is created (its index is `newIdx`); otherwise the caller is
queued as a waiter. -/
def poolAcquire (p : Pool) (newIdx : Nat) : Pool × AcqRes :=
  match pickValid p.idle with
  | some (s, rest) =>
      ({ p with idle := rest, busy := s.sock_idx :: p.busy }, AcqRes.reuse s)
  | none =>
      if p.idle.length + p.busy.length < p.max then
        ({ p with busy := newIdx :: p.busy }, AcqRes.create)
      else
        ({ p with waiting := p.waiting + 1 }, AcqRes.queued)

/-- Modelled from the spec (§4.2): release of a busy socket hands it to a
queued waiter when one exists (it stays busy), else moves it to the idle
set; release of a socket not currently busy is a no-op. -/
def poolRelease (p : Pool) (s : Socket) : Pool :=
  if s.sock_idx ∈ p.busy then
    if 0 < p.waiting then { p with waiting := p.waiting - 1 }
    else { p with busy := p.busy.erase s.sock_idx, idle := p.idle ++ [s] }
  else p

/-- `pool.destroy(socket)`: the pool drops the socket from its idle and
busy sets (bookkeeping modelled from the spec) and runs the `destroy`
closure from `get_pool` on it. -/
def poolDestroy (p : Pool) (s : Socket) : Pool × Socket :=
  ({ p with idle := p.idle.filter (fun t => t.sock_idx ≠ s.sock_idx)
            busy := p.busy.erase s.sock_idx }, destroySocket s)

/-- `server.notes.pool`: absent until first use, then a table mapping
destination keys to pools. -/
abbrev Registry := Option (List (String × Pool))

/-- Look a pool up by name in the registry table. -/
def lookupPool : List (String × Pool) → String → Option Pool
  | [], _ => none
  | kv :: rest, n => if kv.1 = n then some kv.2 else lookupPool rest n

/-- Store an updated pool under its (existing) name. -/
def setPoolTbl (tbl : List (String × Pool)) (n : String) (p : Pool) :
    List (String × Pool) :=
  tbl.map (fun kv => if kv.1 = n then (n, p) else kv)

/-- `get_pool`: default a falsy port to 25 and a falsy host to
`localhost`, build the destination key, lazily create the registry table
and the pool, and return the (possibly updated) registry together with the
pool for the key. -/
def get_pool (cfg : Config) (reg : Registry) (port : Nat) (host : String)
    (local_addr : String) (is_unix_socket : Bool) (max : Nat) :
    Registry × Pool :=
  let port := if port = 0 then 25 else port
  let host := if host = "" then "localhost" else host
  let name := poolName port host local_addr cfg.pool_timeout
  let tbl := reg.getD []
  match lookupPool tbl name with
  | some p => (some tbl, p)
  | none =>
      let p := mkPool name port host local_addr is_unix_socket max
      (some ((name, p) :: tbl), p)

/-- The `sockend` closure inside `release_client`: clear `__fromPool`, then
destroy through the pool when `server.notes.pool[name]` still exists, else
strip all listeners and `destroy()` the socket directly. -/
def sockend (reg : Registry) (name : Option String) (s : Socket) :
    Registry × Socket :=
  let s := { s with fromPool := false }
  match reg, name with
  | some tbl, some n =>
      match lookupPool tbl n with
      | some p =>
          let pr := poolDestroy p s
          (some (setPoolTbl tbl n pr.1), pr.2)
      | none => (some tbl, { s with listeners := [], destroyed := true })
  | _, _ => (reg, { s with listeners := [], destroyed := true })

/-- Result of a `release_client` call: the registry, the socket as the call
leaves it, and the log records emitted (level and message). -/
structure ReleaseResult where
  registry : Registry
  socket : Socket
  log : List (LogLevel × String)
deriving Repr, DecidableEq

/-- `release_client`, line by line from the source: log a debug record;
when the socket has no pool name and pooling is disabled, `sockend`;
reject (warn, no-op) a release of a socket not marked `__acquired`; clear
`__acquired`; if the registry or the named pool is missing, log a critical
record and return; on `error`, or when `pool_timeout` is zero, `sockend`;
otherwise strip the transient listeners, set `__fromPool`, install the
idle `error`/`end` once-listeners and release into the pool. -/
def release_client (cfg : Config) (reg : Registry) (s : Socket)
    (error : Bool) : ReleaseResult :=
  let log0 := [(LogLevel.debug, "release_client: " ++ toString s.sock_idx)]
  let name := s.pool_name
  if name = none ∧ cfg.pool_concurrency_max = 0 then
    let rs := sockend reg name s
    { registry := rs.1, socket := rs.2, log := log0 }
  else if s.acquired = false then
    { registry := reg, socket := s
      log := log0 ++ [(LogLevel.warn, "Release an un-acquired socket")] }
  else
    let s := { s with acquired := false }
    match reg, name with
    | some tbl, some n =>
        match lookupPool tbl n with
        | some p =>
            if error then
              let rs := sockend (some tbl) name s
              { registry := rs.1, socket := rs.2, log := log0 }
            else if cfg.pool_timeout = 0 then
              let rs := sockend (some tbl) name s
              { registry := rs.1, socket := rs.2
                log := log0 ++
                  [(LogLevel.info, "Pool_timeout is zero - shutting it down")] }
            else
              let ls := s.listeners.filter
                (fun l => ¬ (l = "close" ∨ l = "error" ∨ l = "end" ∨
                  l = "timeout" ∨ l = "line"))
              let s := { s with listeners := ls }
              let s := { s with fromPool := true }
              let s := { s with listeners := s.listeners ++ ["error", "end"] }
              let p' := poolRelease p s
              { registry := some (setPoolTbl tbl n p'), socket := s
                log := log0 }
        | none =>
            { registry := some tbl, socket := s
              log := log0 ++ [(LogLevel.crit,
                "Releasing a pool (" ++ n ++ ") that doesn't exist!")] }
    | some tbl, none =>
        { registry := some tbl, socket := s
          log := log0 ++ [(LogLevel.crit,
            "Releasing a pool that doesn't exist!")] }
    | none, _ =>
        { registry := none, socket := s
          log := log0 ++ [(LogLevel.crit,
            "Releasing a pool that doesn't exist!")] }

/-- Process state threaded through `get_client`: the registry and the
global `socket_idx` counter. -/
structure GcState where
  registry : Registry
  socket_idx : Nat
deriving Repr, DecidableEq

/-- What a `get_client` call delivers to its callback. -/
inductive GetClientResult where
  | direct (s : Socket)
  | fail (msg : String)
  | reused (s : Socket)
  | created (s : Socket)
  | queued
deriving Repr, DecidableEq

/-- `get_client`: when `pool_concurrency_max` is 0, call `_create_socket`
directly (null pool name, arguments unchanged); otherwise resolve the pool
via `get_pool`, reject with the backpressure error when the waiter count
has reached `pool_concurrency_max`, else acquire from the pool, marking a
delivered socket `__acquired`. -/
def get_client (cfg : Config) (st : GcState) (port : Nat) (host : String)
    (local_addr : String) (is_unix_socket : Bool) :
    GcState × GetClientResult :=
  if cfg.pool_concurrency_max = 0 then
    let si := _create_socket cfg none port host local_addr is_unix_socket
      st.socket_idx
    ({ registry := st.registry, socket_idx := si.2 },
      GetClientResult.direct si.1)
  else
    let rp := get_pool cfg st.registry port host local_addr is_unix_socket
      cfg.pool_concurrency_max
    if cfg.pool_concurrency_max ≤ rp.2.waiting then
      ({ registry := rp.1, socket_idx := st.socket_idx },
        GetClientResult.fail "Too many waiting clients for pool")
    else
      let pr := poolAcquire rp.2 (st.socket_idx + 1)
      match pr.2 with
      | AcqRes.reuse s =>
          ({ registry := some (setPoolTbl (rp.1.getD []) rp.2.name pr.1)
             socket_idx := st.socket_idx },
            GetClientResult.reused { s with acquired := true })
      | AcqRes.create =>
          let si := _create_socket cfg (some rp.2.name) rp.2.port rp.2.host
            rp.2.local_addr rp.2.is_unix st.socket_idx
          ({ registry := some (setPoolTbl (rp.1.getD []) rp.2.name pr.1)
             socket_idx := si.2 },
            GetClientResult.created { si.1 with acquired := true })
      | AcqRes.queued =>
          ({ registry := some (setPoolTbl (rp.1.getD []) rp.2.name pr.1)
             socket_idx := st.socket_idx },
            GetClientResult.queued)

/-- An abstract pool operation (for the size invariant). -/
inductive PoolOp where
  | acq (newIdx : Nat)
  | rel (s : Socket)
  | des (s : Socket)

/-- Apply one pool operation. -/
def poolStep (p : Pool) : PoolOp → Pool
  | PoolOp.acq i => (poolAcquire p i).1
  | PoolOp.rel s => poolRelease p s
  | PoolOp.des s => (poolDestroy p s).1

/-- Apply a sequence of pool operations. -/
def runPool (p : Pool) : List PoolOp → Pool
  | [] => p
  | op :: ops => runPool (poolStep p op) ops

/-- Connections a pool currently accounts for: idle plus busy. -/
def poolSize (p : Pool) : Nat :=
  p.idle.length + p.busy.length

/-! Helper lemmas about the teardown closure and `sockend`. -/

theorem destroySocket_fromPool (s : Socket) :
    (destroySocket s).fromPool = false := by
  simp only [destroySocket]
  split <;> rfl

theorem destroySocket_ended (s : Socket) :
    (destroySocket s).ended = true := by
  rfl

theorem destroySocket_acquired (s : Socket) :
    (destroySocket s).acquired = s.acquired := by
  simp only [destroySocket]
  split <;> rfl

theorem validate_destroySocket (s : Socket) :
    validate (destroySocket s) = false := by
  simp [validate, destroySocket_fromPool]

theorem sockend_fromPool (reg : Registry) (name : Option String) (s : Socket) :
    (sockend reg name s).2.fromPool = false := by
  unfold sockend
  rcases reg with _ | tbl <;> rcases name with _ | n <;> simp
  cases h : lookupPool tbl n <;> simp [h, poolDestroy, destroySocket_fromPool]

theorem sockend_acquired (reg : Registry) (name : Option String) (s : Socket) :
    (sockend reg name s).2.acquired = s.acquired := by
  unfold sockend
  rcases reg with _ | tbl <;> rcases name with _ | n <;> simp
  cases h : lookupPool tbl n <;> simp [h, poolDestroy, destroySocket_acquired]

theorem destroySocket_pool_name (s : Socket) :
    (destroySocket s).pool_name = s.pool_name := by
  simp only [destroySocket]
  split <;> rfl

theorem sockend_pool_name (reg : Registry) (name : Option String)
    (s : Socket) :
    (sockend reg name s).2.pool_name = s.pool_name := by
  unfold sockend
  rcases reg with _ | tbl <;> rcases name with _ | n <;> simp
  cases h : lookupPool tbl n <;> simp [h, poolDestroy, destroySocket_pool_name]

/-! Helper lemmas about the modelled pool bookkeeping. -/

theorem pickValid_validate : ∀ (l : List Socket) (t : Socket) (r : List Socket),
    pickValid l = some (t, r) → validate t = true
  | [], t, r, h => by simp [pickValid] at h
  | s :: rest, t, r, h => by
      by_cases hv : validate s = true
      · simp [pickValid, hv] at h
        exact h.1 ▸ hv
      · simp [pickValid, hv] at h
        cases hr : pickValid rest with
        | none => simp [hr] at h
        | some tr =>
            rw [hr] at h
            cases tr with
            | mk t' r' =>
                simp at h
                exact h.1 ▸ pickValid_validate rest t' r' hr

theorem pickValid_length : ∀ (l : List Socket) (t : Socket) (r : List Socket),
    pickValid l = some (t, r) → r.length + 1 = l.length
  | [], t, r, h => by simp [pickValid] at h
  | s :: rest, t, r, h => by
      by_cases hv : validate s = true
      · simp [pickValid, hv] at h
        simp [← h.2]
      · simp [pickValid, hv] at h
        cases hr : pickValid rest with
        | none => simp [hr] at h
        | some tr =>
            rw [hr] at h
            cases tr with
            | mk t' r' =>
                simp at h
                have := pickValid_length rest t' r' hr
                simp [← h.2, Nat.succ_eq_add_one]
                omega

theorem poolStep_max (p : Pool) (op : PoolOp) : (poolStep p op).max = p.max := by
  cases op with
  | acq i =>
      simp only [poolStep, poolAcquire]
      cases h : pickValid p.idle with
      | none => simp [h]; split <;> rfl
      | some tr => cases tr with | mk t r => simp [h]
  | rel s =>
      simp only [poolStep, poolRelease]
      split
      · split <;> rfl
      · rfl
  | des s => rfl

theorem poolStep_size (p : Pool) (op : PoolOp) (h : poolSize p ≤ p.max) :
    poolSize (poolStep p op) ≤ p.max := by
  cases op with
  | acq i =>
      simp only [poolStep, poolAcquire]
      cases hp : pickValid p.idle with
      | none =>
          simp only [hp]
          split
          · next hlt => simpa [poolSize] using hlt
          · exact h
      | some tr =>
          cases tr with
          | mk t r =>
              have hl := pickValid_length p.idle t r hp
              simp only [hp, poolSize, List.length_cons] at h ⊢
              omega
  | rel s =>
      simp only [poolStep, poolRelease]
      split
      · next hmem =>
          split
          · exact h
          · have := List.length_erase_of_mem hmem
            have hpos : 1 ≤ p.busy.length := List.length_pos.mpr
              (List.ne_nil_of_mem hmem)
            simp only [poolSize, List.length_append, List.length_cons,
              List.length_nil] at h ⊢
            omega
      · exact h
  | des s =>
      have h1 := List.length_filter_le
        (fun t => decide (t.sock_idx ≠ s.sock_idx)) p.idle
      have h2 := List.length_erase_le s.sock_idx p.busy
      simp only [poolStep, poolDestroy, poolSize] at h ⊢
      omega

theorem runPool_max (p : Pool) (ops : List PoolOp) :
    (runPool p ops).max = p.max := by
  induction ops generalizing p with
  | nil => rfl
  | cons op ops ih => simp [runPool, ih, poolStep_max]

theorem runPool_size (p : Pool) (ops : List PoolOp) (h : poolSize p ≤ p.max) :
    poolSize (runPool p ops) ≤ p.max := by
  induction ops generalizing p with
  | nil => exact h
  | cons op ops ih =>
      simp only [runPool]
      have hs : poolSize (poolStep p op) ≤ (poolStep p op).max := by
        rw [poolStep_max p op]; exact poolStep_size p op h
      have := ih (poolStep p op) hs
      rwa [poolStep_max p op] at this

/-- Whichever branch a release of an acquired socket takes, the
`__acquired` flag is cleared (it is cleared before the pool release or
teardown callbacks run, and none of them sets it back). -/
theorem release_client_clears_acquired (cfg : Config) (reg : Registry)
    (s : Socket) (e : Bool)
    (hnb : ¬ (s.pool_name = none ∧ cfg.pool_concurrency_max = 0))
    (hacq : s.acquired = true) :
    (release_client cfg reg s e).socket.acquired = false := by
  simp only [release_client]
  rw [if_neg hnb, hacq]
  simp only [Bool.true_eq_false, if_false]
  split
  · split
    · split
      · rw [sockend_acquired]
      · split
        · rw [sockend_acquired]
        · rfl
    · rfl
  · rfl
  · rfl

/-! Fixtures used by the concrete witnesses and counterexamples. -/

def cfgPooled : Config :=
  { connect_timeout := 30, pool_timeout := 30, pool_concurrency_max := 10 }

def cfgBypass : Config :=
  { connect_timeout := 30, pool_timeout := 30, pool_concurrency_max := 0 }

def cfgZeroTimeout : Config :=
  { connect_timeout := 30, pool_timeout := 0, pool_concurrency_max := 10 }

def keyFix : String := poolName 25 "mx.example.com" "0.0.0.0" 30

def sockC1 : Socket := { sock_idx := 1, pool_name := some keyFix
                         acquired := true }

/-- C1 (counterexample): releasing an acquired connection whose pool name
is no longer present in the registry table logs a critical anomaly but does
NOT close the transport: at this concrete input the socket comes back
neither half-closed nor destroyed, refuting the claim that the connection
still reaches the Closed state. -/
theorem release_missing_pool_not_closed_cex :
    (release_client cfgPooled (some []) sockC1 false).log.map Prod.fst =
      [LogLevel.debug, LogLevel.crit] ∧
    isClosed (release_client cfgPooled (some []) sockC1 false).socket =
      false ∧
    (release_client cfgPooled (some []) sockC1 false).socket.ended = false ∧
    (release_client cfgPooled (some []) sockC1 false).socket.destroyed =
      false := by
  exact ⟨rfl, rfl, rfl, rfl⟩

/-- C1 (amended): for every release of an acquired connection whose pool
name is no longer present in the registry table, a critical anomaly is
logged and the call returns leaving the transport untouched — the only
mutation is that the acquired flag is cleared; the connection is NOT
closed. -/
theorem release_missing_pool_logs_crit_no_close (cfg : Config)
    (tbl : List (String × Pool)) (s : Socket) (e : Bool) (n : String)
    (hname : s.pool_name = some n) (hacq : s.acquired = true)
    (hlook : lookupPool tbl n = none) :
    (release_client cfg (some tbl) s e).registry = some tbl ∧
    (release_client cfg (some tbl) s e).socket =
      { s with acquired := false } ∧
    (release_client cfg (some tbl) s e).log.map Prod.fst =
      [LogLevel.debug, LogLevel.crit] := by
  have hnb : ¬ (s.pool_name = none ∧ cfg.pool_concurrency_max = 0) := by
    simp [hname]
  simp only [release_client]
  rw [if_neg hnb, hacq]
  simp only [Bool.true_eq_false, if_false, hname, hlook]
  refine ⟨?_, ?_, ?_⟩ <;> first | rfl | trivial

/-- C1 (witness): the amended statement at the concrete counterexample
input. -/
theorem release_missing_pool_logs_crit_no_close_witness :
    (release_client cfgPooled (some []) sockC1 false).registry = some [] ∧
    (release_client cfgPooled (some []) sockC1 false).socket =
      { sockC1 with acquired := false } ∧
    (release_client cfgPooled (some []) sockC1 false).log.map Prod.fst =
      [LogLevel.debug, LogLevel.crit] :=
  release_missing_pool_logs_crit_no_close cfgPooled [] sockC1 false keyFix
    rfl rfl rfl

/-- C5: the `destroy` closure writes the literal termination command
`"QUIT\r\n"` to the transport exactly when the transport reported writable
at the moment teardown began, and unconditionally attempts the half-close
(`end()`) afterwards. -/
theorem destroy_writes_quit_iff_writable_and_always_ends (s : Socket) :
    (destroySocket s).written =
      s.written ++ (if s.writable then ["QUIT\r\n"] else []) ∧
    (destroySocket s).ended = true := by
  refine ⟨?_, destroySocket_ended s⟩
  simp only [destroySocket]
  split <;> simp

def sockC6 : Socket := { sock_idx := 2 }

/-- C6 (counterexample): in the pooling-bypass case (no pool name on the
socket and `pool_concurrency_max = 0`), a release of a connection not
marked acquired does not merely log a warning: at this concrete input the
transport is destroyed and no warning is logged, refuting the claim as
universally stated. -/
theorem unacquired_release_bypass_closes_cex :
    (release_client cfgBypass (some []) sockC6 false).socket.destroyed =
      true ∧
    (release_client cfgBypass (some []) sockC6 false).log.map Prod.fst =
      [LogLevel.debug] := by
  exact ⟨rfl, rfl⟩

/-- C6 (amended): except in the pooling-bypass case (socket without a pool
name while `pool_concurrency_max = 0`, where the transport is closed
directly), a release of a connection not marked acquired produces only a
logged warning and changes nothing — neither the registry (hence no pool's
idle set, busy count or waiter queue) nor the socket; moreover on a valid
release the acquired flag is cleared before any pool release or teardown
callback runs, so a repeated release of the same connection is the warning
no-op and never mutates pool state twice. -/
theorem unacquired_release_noop_and_flag_cleared_first (cfg : Config)
    (reg : Registry) (s : Socket) (e : Bool)
    (hnb : ¬ (s.pool_name = none ∧ cfg.pool_concurrency_max = 0)) :
    (s.acquired = false →
      (release_client cfg reg s e).registry = reg ∧
      (release_client cfg reg s e).socket = s ∧
      (release_client cfg reg s e).log.map Prod.fst =
        [LogLevel.debug, LogLevel.warn]) ∧
    (s.acquired = true →
      (release_client cfg reg s e).socket.acquired = false ∧
      ∀ e', (release_client cfg
          (release_client cfg reg s e).registry
          (release_client cfg reg s e).socket e').registry =
        (release_client cfg reg s e).registry) := by
  constructor
  · intro hacq
    simp only [release_client]
    rw [if_neg hnb, hacq]
    exact ⟨rfl, rfl, rfl⟩
  · intro hacq
    have hcl := release_client_clears_acquired cfg reg s e hnb hacq
    refine ⟨hcl, ?_⟩
    intro e'
    have hpn : (release_client cfg reg s e).socket.pool_name =
        s.pool_name := by
      simp only [release_client]
      rw [if_neg hnb, hacq]
      simp only [Bool.true_eq_false, if_false]
      split
      · split
        · split
          · rw [sockend_pool_name]
          · split
            · rw [sockend_pool_name]
            · rfl
        · rfl
      · rfl
      · rfl
    have hnb' : ¬ ((release_client cfg reg s e).socket.pool_name = none ∧
        cfg.pool_concurrency_max = 0) := by
      rw [hpn]; exact hnb
    set r := release_client cfg reg s e with hr
    conv_lhs => rw [release_client]
    rw [if_neg hnb', hcl]
    simp

/-- `sockend` when the registry still holds the named pool: destroy through
the pool. -/
theorem sockend_found (tbl : List (String × Pool)) (n : String) (p : Pool)
    (s : Socket) (hlook : lookupPool tbl n = some p) :
    sockend (some tbl) (some n) s =
      (some (setPoolTbl tbl n
          (poolDestroy p { s with fromPool := false }).1),
        (poolDestroy p { s with fromPool := false }).2) := by
  simp only [sockend, hlook]

/-- The error / zero-idle-timeout branches of `release_client` both route
an acquired pooled socket through `sockend`. -/
theorem release_client_teardown_path (cfg : Config)
    (tbl : List (String × Pool)) (s : Socket) (n : String) (p : Pool)
    (e : Bool) (hacq : s.acquired = true) (hname : s.pool_name = some n)
    (hlook : lookupPool tbl n = some p)
    (he : e = true ∨ cfg.pool_timeout = 0) :
    (release_client cfg (some tbl) s e).registry =
      (sockend (some tbl) (some n) { s with acquired := false }).1 ∧
    (release_client cfg (some tbl) s e).socket =
      (sockend (some tbl) (some n) { s with acquired := false }).2 := by
  have hnb : ¬ (s.pool_name = none ∧ cfg.pool_concurrency_max = 0) := by
    simp [hname]
  simp only [release_client]
  rw [if_neg hnb, hacq]
  simp only [Bool.true_eq_false, if_false, hname, hlook]
  rcases he with he | he
  · subst he
    exact ⟨rfl, rfl⟩
  · cases e
    · simp [he]
    · exact ⟨rfl, rfl⟩

/-- The normal release path: transient listeners stripped, `__fromPool`
set, idle `error`/`end` listeners installed, socket released into the
pool. -/
theorem release_client_normal_path (cfg : Config)
    (tbl : List (String × Pool)) (s : Socket) (n : String) (p : Pool)
    (hacq : s.acquired = true) (hname : s.pool_name = some n)
    (hlook : lookupPool tbl n = some p) (hpt : cfg.pool_timeout ≠ 0) :
    (release_client cfg (some tbl) s false).socket =
      { s with
        acquired := false
        fromPool := true
        listeners := s.listeners.filter
          (fun l => ¬ (l = "close" ∨ l = "error" ∨ l = "end" ∨
            l = "timeout" ∨ l = "line")) ++ ["error", "end"] } ∧
    (release_client cfg (some tbl) s false).registry =
      some (setPoolTbl tbl n
        (poolRelease p (release_client cfg (some tbl) s false).socket)) := by
  have hnb : ¬ (s.pool_name = none ∧ cfg.pool_concurrency_max = 0) := by
    simp [hname]
  simp only [release_client]
  rw [if_neg hnb, hacq]
  simp only [Bool.true_eq_false, if_false, hname, hlook]
  rw [if_neg hpt]
  exact ⟨rfl, rfl⟩

/-- C2: when the pool for a destination already exists and has at least
`pool_concurrency_max` queued waiters, `get_client` fails immediately with
the backpressure error "Too many waiting clients for pool", creates no
socket (the global socket counter is untouched) and mutates nothing (the
registry is returned exactly as it was). -/
theorem backpressure_rejects_without_side_effects (cfg : Config)
    (tbl : List (String × Pool)) (i port : Nat) (host la : String)
    (u : Bool) (p : Pool)
    (hM : cfg.pool_concurrency_max ≠ 0)
    (hlook : lookupPool tbl (poolName (if port = 0 then 25 else port)
      (if host = "" then "localhost" else host) la cfg.pool_timeout) =
      some p)
    (hw : cfg.pool_concurrency_max ≤ p.waiting) :
    get_client cfg { registry := some tbl, socket_idx := i } port host la
        u =
      ({ registry := some tbl, socket_idx := i },
        GetClientResult.fail "Too many waiting clients for pool") := by
  simp only [get_client, get_pool, Option.getD_some]
  rw [if_neg hM]
  simp only [hlook]
  rw [if_pos hw]

/-- C3: with `pool_concurrency_max = 0`, `get_client` invokes the socket
factory directly — the registry is returned untouched (even when absent)
and the socket carries no pool name — and `release_client` on a socket
with no pool name closes the transport directly (all listeners removed,
`destroy()` called), again leaving the registry untouched. -/
theorem bypass_mode_skips_pool_and_closes_directly (cfg : Config)
    (reg : Registry) (i port : Nat) (host la : String) (u : Bool)
    (s : Socket) (e : Bool)
    (hM : cfg.pool_concurrency_max = 0) (hs : s.pool_name = none) :
    get_client cfg { registry := reg, socket_idx := i } port host la u =
      ({ registry := reg, socket_idx := i + 1 },
        GetClientResult.direct ((_create_socket cfg none port host la u
          i).1)) ∧
    ((_create_socket cfg none port host la u i).1).pool_name = none ∧
    (release_client cfg reg s e).registry = reg ∧
    (release_client cfg reg s e).socket.destroyed = true ∧
    (release_client cfg reg s e).socket.listeners = [] ∧
    isClosed (release_client cfg reg s e).socket = true := by
  refine ⟨?_, rfl, ?_⟩
  · simp only [get_client]
    rw [if_pos hM]
    rfl
  · simp only [release_client]
    rw [if_pos ⟨hs, hM⟩]
    simp only [hs]
    rcases reg with _ | tbl
    · exact ⟨rfl, rfl, rfl,
        by simp only [isClosed, Bool.or_eq_true]; exact Or.inr rfl⟩
    · exact ⟨rfl, rfl, rfl,
        by simp only [isClosed, Bool.or_eq_true]; exact Or.inr rfl⟩

def keyZ : String := poolName 25 "mx.example.com" "0.0.0.0" 0

def poolZ : Pool := mkPool keyZ 25 "mx.example.com" "0.0.0.0" false 10

def sockC4 : Socket := { sock_idx := 4, pool_name := some keyZ
                         acquired := true }

/-- C4 (counterexample): with `pool_timeout = 0`, a release of an acquired
connection whose pool is missing from the registry does NOT reach the
Closed state — the call only logs critically and returns, leaving the
transport open, refuting the claim that every such release reaches
Closed. -/
theorem pool_timeout_zero_missing_pool_not_closed_cex :
    isClosed (release_client cfgZeroTimeout (some []) sockC4 false).socket =
      false ∧
    (release_client cfgZeroTimeout (some []) sockC4 false).log.map
      Prod.fst = [LogLevel.debug, LogLevel.crit] := by
  exact ⟨rfl, rfl⟩

/-- C4 (amended): with `pool_timeout = 0`, every `release_client` call on
an acquired connection whose pool is still present in the registry —
whichever value `error_occurred` has — routes the connection through the
teardown protocol: the transport is half-closed (reaching the Closed
state), the pool-membership flag is cleared, and the connection is removed
from (so never placed in) the pool's idle set. -/
theorem pool_timeout_zero_release_reaches_closed (cfg : Config)
    (tbl : List (String × Pool)) (s : Socket) (n : String) (p : Pool)
    (e : Bool) (hpt : cfg.pool_timeout = 0) (hacq : s.acquired = true)
    (hname : s.pool_name = some n) (hlook : lookupPool tbl n = some p) :
    (release_client cfg (some tbl) s e).socket.ended = true ∧
    isClosed (release_client cfg (some tbl) s e).socket = true ∧
    (release_client cfg (some tbl) s e).socket.fromPool = false ∧
    ∃ p', (release_client cfg (some tbl) s e).registry =
        some (setPoolTbl tbl n p') ∧
      ∀ t ∈ p'.idle, t.sock_idx ≠ s.sock_idx := by
  have h := release_client_teardown_path cfg tbl s n p e hacq hname hlook
    (Or.inr hpt)
  rw [sockend_found tbl n p _ hlook] at h
  obtain ⟨hreg, hsock⟩ := h
  refine ⟨?_, ?_, ?_, ?_⟩
  · rw [hsock]
    simp [poolDestroy, destroySocket_ended]
  · rw [hsock]
    simp [poolDestroy, isClosed, destroySocket_ended]
  · rw [hsock]
    simp [poolDestroy, destroySocket_fromPool]
  · refine ⟨(poolDestroy p { { s with acquired := false } with
      fromPool := false }).1, hreg, ?_⟩
    intro t ht
    simp only [poolDestroy, List.mem_filter] at ht
    simpa using ht.2

/-- C4 (witness): the amended statement at a concrete input (pool present,
`pool_timeout = 0`). -/
theorem pool_timeout_zero_release_reaches_closed_witness :
    (release_client cfgZeroTimeout (some [(keyZ, poolZ)]) sockC4
      false).socket.ended = true ∧
    isClosed (release_client cfgZeroTimeout (some [(keyZ, poolZ)]) sockC4
      false).socket = true ∧
    (release_client cfgZeroTimeout (some [(keyZ, poolZ)]) sockC4
      false).socket.fromPool = false ∧
    ∃ p', (release_client cfgZeroTimeout (some [(keyZ, poolZ)]) sockC4
        false).registry = some (setPoolTbl [(keyZ, poolZ)] keyZ p') ∧
      ∀ t ∈ p'.idle, t.sock_idx ≠ sockC4.sock_idx :=
  pool_timeout_zero_release_reaches_closed cfgZeroTimeout [(keyZ, poolZ)]
    sockC4 keyZ poolZ false rfl rfl rfl (by rfl)

/-- A socket carrying none of the three connect-phase listeners never
invokes the callback again, whatever signals arrive later. -/
theorem connRun_no_cb (port : Nat) (host : String) (s : Socket)
    (evs : List ConnEvent)
    (hc : "connect" ∉ s.listeners) (he : "error" ∉ s.listeners)
    (ht : "timeout" ∉ s.listeners) :
    (connRun port host s evs).2 = [] := by
  induction evs generalizing s with
  | nil => rfl
  | cons ev evs ih =>
      cases ev with
      | connected =>
          simp only [connRun, connStep, if_neg hc]
          exact ih s hc he ht
      | errored e =>
          simp only [connRun, connStep, if_neg he]
          exact ih s hc he ht
      | timedOut =>
          simp only [connRun, connStep, if_neg ht]
          exact ih s hc he ht

def sockC7 : Socket :=
  (_create_socket cfgPooled none 25 "mx.example.com" "0.0.0.0" false 0).1

/-- C7 (counterexample): the error and timeout once-handlers remove only
themselves, leaving the sibling listeners (including `connect`)
installed, so a connect attempt whose transport signals a timeout and
then connect success invokes the callback TWICE — first with the timeout
error, then with a connection — refuting the claim that after a timeout
or error the callback is invoked exactly once with a non-null error and
a null connection. -/
theorem connect_after_timeout_double_callback_cex :
    (connRun 25 "mx.example.com" sockC7
      [ConnEvent.timedOut, ConnEvent.connected]).2 =
      [CbVal.fail "Outbound connection timed out to mx.example.com:25",
        CbVal.ok { sockC7 with listeners := [], ended := true }] ∧
    (connRun 25 "mx.example.com" sockC7
      [ConnEvent.timedOut, ConnEvent.connected]).2.length = 2 := by
  exact ⟨rfl, rfl⟩

/-- C7 (amended): for a factory connection attempt, a first transport
signal that is a timeout or a low-level error invokes the callback with a
non-null error message and no connection (the `fail` outcome carries no
socket) and half-closes the partially-open transport with `end()`; but
the handler removes only itself, so the `connect` once-listener stays
installed and a later signal can invoke the callback again.  Only when
the first signal is connect success is the callback invoked exactly
once: the transient `error` and `timeout` listeners are removed before
the connection is handed to the caller, and no later signal invokes the
callback again. -/
theorem create_socket_callback_events (cfg : Config)
    (pn : Option String) (port : Nat) (host la : String) (u : Bool)
    (idx : Nat) (ev : ConnEvent) (s : Socket) (evs : List ConnEvent)
    (hs : s = (_create_socket cfg pn port host la u idx).1)
    (hev : ev ≠ ConnEvent.connected) :
    (∃ msg, (connStep port host s ev).2 = some (CbVal.fail msg)) ∧
    (connStep port host s ev).1.ended = true ∧
    "connect" ∈ (connStep port host s ev).1.listeners ∧
    (connRun port host s (ConnEvent.connected :: evs)).2 =
      [CbVal.ok (connStep port host s ConnEvent.connected).1] ∧
    "error" ∉ (connStep port host s ConnEvent.connected).1.listeners ∧
    "timeout" ∉
      (connStep port host s ConnEvent.connected).1.listeners := by
  subst hs
  have hstep : connStep port host
      ((_create_socket cfg pn port host la u idx).1) ConnEvent.connected =
      ({ (_create_socket cfg pn port host la u idx).1 with
          listeners := [] },
        some (CbVal.ok { (_create_socket cfg pn port host la u idx).1 with
          listeners := [] })) := rfl
  refine ⟨?_, ?_, ?_, ?_, ?_, ?_⟩
  · cases ev with
    | connected => exact absurd rfl hev
    | errored e => exact ⟨_, rfl⟩
    | timedOut => exact ⟨_, rfl⟩
  · cases ev with
    | connected => exact absurd rfl hev
    | errored e => rfl
    | timedOut => rfl
  · cases ev with
    | connected => exact absurd rfl hev
    | errored e => exact List.Mem.head _
    | timedOut => exact List.Mem.head _
  · have hrest := connRun_no_cb port host
      { (_create_socket cfg pn port host la u idx).1 with listeners := [] }
      evs (by simp) (by simp) (by simp)
    simp only [connRun, hstep, hrest]
  · simp [hstep]
  · simp [hstep]

/-- C7 (witness): the amended statement at a concrete timed-out attempt
followed by a bare connect-success trace. -/
theorem create_socket_callback_events_witness :
    (∃ msg, (connStep 25 "mx.example.com" sockC7 ConnEvent.timedOut).2 =
      some (CbVal.fail msg)) ∧
    (connStep 25 "mx.example.com" sockC7 ConnEvent.timedOut).1.ended =
      true ∧
    "connect" ∈
      (connStep 25 "mx.example.com" sockC7 ConnEvent.timedOut).1.listeners ∧
    (connRun 25 "mx.example.com" sockC7 [ConnEvent.connected]).2 =
      [CbVal.ok (connStep 25 "mx.example.com" sockC7
        ConnEvent.connected).1] ∧
    "error" ∉
      (connStep 25 "mx.example.com" sockC7
        ConnEvent.connected).1.listeners ∧
    "timeout" ∉
      (connStep 25 "mx.example.com" sockC7
        ConnEvent.connected).1.listeners :=
  create_socket_callback_events cfgPooled none 25 "mx.example.com"
    "0.0.0.0" false 0 ConnEvent.timedOut sockC7 [] rfl (by decide)

def sockW6 : Socket := { sock_idx := 6, pool_name := some keyFix }

/-- C6 (witness): the amended statement's no-op part at a concrete pooled
input (socket has a pool name, not marked acquired). -/
theorem unacquired_release_noop_witness :
    (release_client cfgPooled (some []) sockW6 false).registry = some [] ∧
    (release_client cfgPooled (some []) sockW6 false).socket = sockW6 ∧
    (release_client cfgPooled (some []) sockW6 false).log.map Prod.fst =
      [LogLevel.debug, LogLevel.warn] :=
  (unacquired_release_noop_and_flag_cleared_first cfgPooled (some [])
    sockW6 false (by decide)).1 rfl

def cfgSmall : Config :=
  { connect_timeout := 30, pool_timeout := 30, pool_concurrency_max := 2 }

def poolBusy : Pool :=
  { mkPool keyFix 25 "mx.example.com" "0.0.0.0" false 2 with waiting := 2 }

/-- C2 (witness): the backpressure rejection at a concrete input (pool
with 2 waiters, `pool_concurrency_max = 2`). -/
theorem backpressure_rejects_without_side_effects_witness :
    get_client cfgSmall
        { registry := some [(keyFix, poolBusy)], socket_idx := 5 }
        25 "mx.example.com" "0.0.0.0" false =
      ({ registry := some [(keyFix, poolBusy)], socket_idx := 5 },
        GetClientResult.fail "Too many waiting clients for pool") :=
  backpressure_rejects_without_side_effects cfgSmall [(keyFix, poolBusy)]
    5 25 "mx.example.com" "0.0.0.0" false poolBusy (by decide) (by rfl)
    (by decide)

def sockW3 : Socket := { sock_idx := 9 }

/-- C3 (witness): the bypass behavior at a concrete input. -/
theorem bypass_mode_skips_pool_witness :
    get_client cfgBypass { registry := some [], socket_idx := 7 } 2525
        "mx.example.com" "lo" false =
      ({ registry := some [], socket_idx := 8 },
        GetClientResult.direct ((_create_socket cfgBypass none 2525
          "mx.example.com" "lo" false 7).1)) ∧
    ((_create_socket cfgBypass none 2525 "mx.example.com" "lo" false
      7).1).pool_name = none ∧
    (release_client cfgBypass (some []) sockW3 false).registry = some [] ∧
    (release_client cfgBypass (some []) sockW3 false).socket.destroyed =
      true ∧
    (release_client cfgBypass (some []) sockW3 false).socket.listeners =
      [] ∧
    isClosed (release_client cfgBypass (some []) sockW3 false).socket =
      true :=
  bypass_mode_skips_pool_and_closes_directly cfgBypass (some []) 7 2525
    "mx.example.com" "lo" false sockW3 false rfl rfl

/-- C8: for every pool freshly created by `get_pool` for a destination and
every sequence of acquire, release and destroy operations on it, the
number of idle plus busy connections never exceeds the configured maximum
(`max || 10`, i.e. 10 when the supplied maximum is falsy). -/
theorem pool_size_invariant (cfg : Config) (port : Nat) (host la : String)
    (u : Bool) (m : Nat) (ops : List PoolOp) :
    poolSize (runPool (get_pool cfg none port host la u m).2 ops) ≤
      (if m = 0 then 10 else m) := by
  have hstart : poolSize (get_pool cfg none port host la u m).2 ≤
      (get_pool cfg none port host la u m).2.max := by
    simp [get_pool, lookupPool, mkPool, poolSize]
  have h := runPool_size _ ops hstart
  have hmax : (get_pool cfg none port host la u m).2.max =
      (if m = 0 then 10 else m) := rfl
  rwa [hmax] at h

def poolFix : Pool := mkPool keyFix 25 "mx.example.com" "0.0.0.0" false 10

def validSock : Socket := { sock_idx := 14, fromPool := true }

def sockW9 : Socket := { sock_idx := 13, pool_name := some keyFix
                         acquired := true }

/-- C9: a socket is handed out for reuse from the idle scan only if it
passes `validate`, which requires both the pool-membership flag and
transport writability; the teardown closure clears the pool-membership
flag (directly, and through `sockend`), so a socket that has entered
teardown fails `validate`; and a normal release sets the flag just before
re-entering the idle set. -/
theorem teardown_excludes_revalidation (cfg : Config)
    (tbl : List (String × Pool)) (n : String) (p : Pool)
    (s w t : Socket) (l r : List Socket)
    (hpick : pickValid l = some (t, r))
    (hacq : w.acquired = true) (hname : w.pool_name = some n)
    (hlook : lookupPool tbl n = some p) (hpt : cfg.pool_timeout ≠ 0) :
    validate t = true ∧
    (destroySocket s).fromPool = false ∧
    validate (destroySocket s) = false ∧
    (sockend (some tbl) (some n) s).2.fromPool = false ∧
    validate (sockend (some tbl) (some n) s).2 = false ∧
    (release_client cfg (some tbl) w false).socket.fromPool = true := by
  refine ⟨pickValid_validate l t r hpick, destroySocket_fromPool s,
    validate_destroySocket s, sockend_fromPool _ _ _, ?_, ?_⟩
  · simp [validate, sockend_fromPool]
  · rw [(release_client_normal_path cfg tbl w n p hacq hname hlook hpt).1]

/-- C9 (witness): the statement at concrete inputs (a validated idle
socket, a torn-down socket, a normally released socket). -/
theorem teardown_excludes_revalidation_witness :
    validate validSock = true ∧
    (destroySocket sockW6).fromPool = false ∧
    validate (destroySocket sockW6) = false ∧
    (sockend (some [(keyFix, poolFix)]) (some keyFix) sockW6).2.fromPool =
      false ∧
    validate (sockend (some [(keyFix, poolFix)]) (some keyFix)
      sockW6).2 = false ∧
    (release_client cfgPooled (some [(keyFix, poolFix)]) sockW9
      false).socket.fromPool = true :=
  teardown_excludes_revalidation cfgPooled [(keyFix, poolFix)] keyFix
    poolFix sockW6 sockW9 validSock [validSock] [] (by rfl) rfl rfl
    (by rfl) (by decide)

/-- C10: in pooled mode a falsy port defaults to 25 and a falsy host to
"localhost" — both in the destination key and in the values the factory is
invoked with for the actual connection — whereas the pooling-bypass path
passes port and host to the factory unchanged, with no defaulting. -/
theorem pooled_defaults_bypass_raw (cfg cfg0 : Config) (la : String)
    (u : Bool) (reg : Registry) (i j : Nat)
    (hM : cfg.pool_concurrency_max ≠ 0)
    (h0 : cfg0.pool_concurrency_max = 0) :
    (get_pool cfg (some []) 0 "" la u cfg.pool_concurrency_max).2.name =
      poolName 25 "localhost" la cfg.pool_timeout ∧
    (get_pool cfg (some []) 0 "" la u cfg.pool_concurrency_max).2.port =
      25 ∧
    (get_pool cfg (some []) 0 "" la u cfg.pool_concurrency_max).2.host =
      "localhost" ∧
    ((get_client cfg { registry := some [], socket_idx := i } 0 "" la
        false).2 =
      GetClientResult.created
        { (_create_socket cfg
            (some (poolName 25 "localhost" la cfg.pool_timeout))
            25 "localhost" la false i).1 with acquired := true }) ∧
    (get_client cfg0 { registry := reg, socket_idx := j } 0 "" la false =
      ({ registry := reg, socket_idx := j + 1 },
        GetClientResult.direct ((_create_socket cfg0 none 0 "" la false
          j).1))) ∧
    ((_create_socket cfg0 none 0 "" la false j).1).dest =
      ConnTarget.tcp 0 "" la := by
  refine ⟨rfl, rfl, rfl, ?_, ?_, rfl⟩
  · simp only [get_client]
    rw [if_neg hM]
    simp [get_pool, lookupPool, mkPool, poolAcquire, pickValid, hM,
      Nat.pos_of_ne_zero hM, poolName, _create_socket]
  · simp only [get_client]
    rw [if_pos h0]
    rfl

/-- C10 (witness): the statement at concrete inputs. -/
theorem pooled_defaults_bypass_raw_witness :
    (get_pool cfgPooled (some []) 0 "" "lo" false
      cfgPooled.pool_concurrency_max).2.name =
      poolName 25 "localhost" "lo" cfgPooled.pool_timeout ∧
    (get_pool cfgPooled (some []) 0 "" "lo" false
      cfgPooled.pool_concurrency_max).2.port = 25 ∧
    (get_pool cfgPooled (some []) 0 "" "lo" false
      cfgPooled.pool_concurrency_max).2.host = "localhost" ∧
    ((get_client cfgPooled { registry := some [], socket_idx := 0 } 0 ""
        "lo" false).2 =
      GetClientResult.created
        { (_create_socket cfgPooled
            (some (poolName 25 "localhost" "lo" cfgPooled.pool_timeout))
            25 "localhost" "lo" false 0).1 with acquired := true }) ∧
    (get_client cfgBypass { registry := none, socket_idx := 3 } 0 "" "lo"
        false =
      ({ registry := none, socket_idx := 4 },
        GetClientResult.direct ((_create_socket cfgBypass none 0 "" "lo"
          false 3).1))) ∧
    ((_create_socket cfgBypass none 0 "" "lo" false 3).1).dest =
      ConnTarget.tcp 0 "" "lo" :=
  pooled_defaults_bypass_raw cfgPooled cfgBypass "lo" false none 0 3
    (by decide) rfl

end ClientPool
